import Mathlib

/-!
# Gauss — verification of the topic engine, pipeline, framing and reload core

Shallow embedding of the Gauss streaming platform's core components,
translated from the Rust sources:

* `src/libs/api/src/lib.rs` / `src/libs/api/src/error.rs` — data model
  (`DataFormat`, `RecordData`, `TopicRecord`, `TopicQuery`, `PluginError`,
  `OverflowPolicy`);
* `src/libs/topic-engine/src/lib.rs` — `Topic::publish`, `MemoryStorage`;
* `src/libs/gauss-engine/src/topic.rs` — `TopicRegistry`;
* `src/libs/gauss-engine/src/bootstrap.rs` — `Engine::reload`;
* `src/libs/plugin-host/src/lib.rs` — `load_plugin`;
* `src/plugins/framing/lines/src/lib.rs` — `LinesFraming`;
* `src/plugins/framing/length-prefixed/src/lib.rs` — `LengthPrefixedFraming`;
* `src/plugins/format/json/src/lib.rs` (and csv, avro) — codec `encode`;
* `src/libs/pipeline/src/endpoint.rs` — `encode_to_wire`.

Bytes (`u8`) are modelled as `Nat`; byte-valued results only ever arise from
byte-valued inputs, so no truncation arithmetic is needed except where the
source itself casts (`len as u32`, modelled with `% 2 ^ 32`).
-/

namespace Gauss

/-- Model of `ErrorKind` from `src/libs/api/src/error.rs`: category of a plugin error. -/
inductive ErrorKind
  | config
  | io
  | format
  | logic
deriving DecidableEq, Repr

/-- Model of `PluginError` from `src/libs/api/src/error.rs`: kind plus message. -/
structure PluginError where
  kind : ErrorKind
  message : String
deriving DecidableEq, Repr

/-- Model of `PluginError::format_err` — format/parse error. -/
def PluginError.format_err (msg : String) : PluginError := ⟨.format, msg⟩

/-- Model of `PluginError::config` — configuration error. -/
def PluginError.config (msg : String) : PluginError := ⟨.config, msg⟩

/-- Model of `PluginError::new` — generic logic error (default kind). -/
def PluginError.new (msg : String) : PluginError := ⟨.logic, msg⟩

/-- Model of `DataFormat` from `src/libs/api/src/lib.rs`: closed enumeration of
wire-data format tags. -/
inductive DataFormat
  | json
  | csv
  | protobuf
  | avro
  | raw
deriving DecidableEq, Repr

/-- Model of `RecordData` from `src/libs/api/src/lib.rs`: opaque binary payload with a
format tag. -/
structure RecordData where
  bytes : List Nat
  format : DataFormat
deriving DecidableEq, Repr

/-- Model of `TopicRecord` from `src/libs/api/src/lib.rs`: timestamp, partition key,
payload. -/
structure TopicRecord where
  ts_ms : Int
  key : String
  data : RecordData
deriving DecidableEq, Repr

/-- Model of `OverflowPolicy` from `src/libs/api/src/lib.rs`. -/
inductive OverflowPolicy
  | drop
  | backPressure
deriving DecidableEq, Repr

/-- Model of `TopicQuery` from `src/libs/api/src/lib.rs` (the crate root definition
used by the topic engine): key filter, inclusive lower bound, exclusive upper
bound, limit.  This generation of the query type has no `offset` and no
`order` field. -/
structure TopicQuery where
  key : Option String
  from_ms : Option Int
  to_ms : Option Int
  limit : Option Nat
deriving DecidableEq, Repr

/-! ## Lines framing — `src/plugins/framing/lines/src/lib.rs` -/

/-- Model of `LinesFraming` configuration: `max_length = 0` means no limit. -/
structure LinesFraming where
  max_length : Nat
deriving DecidableEq, Repr

/-- Model of `LinesFraming::encode`: append the payload and a `\n` byte to `buf`.
The Rust implementation always returns `Ok(())`, mutating `buf`; the model
returns the extended buffer. -/
def LinesFraming.encode (_f : LinesFraming) (data : List Nat) (buf : List Nat) :
    Except PluginError (List Nat) :=
  .ok (buf ++ data ++ [10])

/-- Model of `LinesFraming::decode`: find the first `\n`; without one, fail if the
buffer already exceeds `max_length` (when limited), otherwise report
"incomplete".  With one, take the bytes before it, trim one trailing `\r`,
enforce `max_length`, and consume through the newline. -/
def LinesFraming.decode (f : LinesFraming) (buf : List Nat) :
    Except PluginError (Option (List Nat × Nat)) :=
  match buf.findIdx? (fun b => b == 10) with
  | none =>
      if f.max_length > 0 ∧ buf.length > f.max_length then
        .error (PluginError.format_err "line too long and no newline found")
      else
        .ok none
  | some pos =>
      let consumed := pos + 1
      let line := buf.take pos
      let line := if line.getLast? = some 13 then line.dropLast else line
      if f.max_length > 0 ∧ line.length > f.max_length then
        .error (PluginError.format_err "line too long")
      else
        .ok (some (line, consumed))

/-- Round-trip through the lines framing starting from an empty output
buffer, as in the spec law `decode(encode(x))`. -/
def linesRoundtrip (f : LinesFraming) (x : List Nat) :
    Except PluginError (Option (List Nat × Nat)) := do
  let w ← f.encode x []
  f.decode w

/-! ## Length-prefixed framing — `src/plugins/framing/length-prefixed/src/lib.rs` -/

/-- Byte order of the length header. -/
inductive ByteOrder
  | big
  | little
deriving DecidableEq, Repr

/-- Model of `LengthPrefixedFraming` configuration.  `max_payload = 0` means no
limit. -/
structure LengthPrefixedFraming where
  length_bytes : Nat
  byte_order : ByteOrder
  max_payload : Nat
deriving DecidableEq, Repr

/-- Model of `LengthPrefixedFraming::encode`: write the payload length into a 1-, 2-
or 4-byte header (checking that it fits for 1 and 2; the 4-byte path performs
the Rust `len as u32` truncation, modelled by `% 2 ^ 32`), then append the
payload.  Unsupported header sizes are a config error. -/
def LengthPrefixedFraming.encode (f : LengthPrefixedFraming) (data : List Nat)
    (buf : List Nat) : Except PluginError (List Nat) :=
  let len := data.length
  match f.length_bytes with
  | 1 =>
      if len > 255 then
        .error (PluginError.format_err "payload too large for 1-byte header")
      else
        .ok (buf ++ [len] ++ data)
  | 2 =>
      if len > 65535 then
        .error (PluginError.format_err "payload too large for 2-byte header")
      else
        match f.byte_order with
        | .big => .ok (buf ++ [len / 256, len % 256] ++ data)
        | .little => .ok (buf ++ [len % 256, len / 256] ++ data)
  | 4 =>
      let m := len % 2 ^ 32
      match f.byte_order with
      | .big =>
          .ok (buf ++ [m / 2 ^ 24, m / 2 ^ 16 % 256, m / 2 ^ 8 % 256, m % 256] ++ data)
      | .little =>
          .ok (buf ++ [m % 256, m / 2 ^ 8 % 256, m / 2 ^ 16 % 256, m / 2 ^ 24] ++ data)
  | _ =>
      .error (PluginError.config "unsupported length_bytes")

/-- Header value read back by `LengthPrefixedFraming::decode`
(`u16::from_be_bytes` etc. as arithmetic on the leading bytes). -/
def lpReadLen (f : LengthPrefixedFraming) (buf : List Nat) :
    Except PluginError Nat :=
  match f.length_bytes with
  | 1 => .ok (buf.getD 0 0)
  | 2 =>
      match f.byte_order with
      | .big => .ok (256 * buf.getD 0 0 + buf.getD 1 0)
      | .little => .ok (256 * buf.getD 1 0 + buf.getD 0 0)
  | 4 =>
      match f.byte_order with
      | .big =>
          .ok (2 ^ 24 * buf.getD 0 0 + 2 ^ 16 * buf.getD 1 0 +
            2 ^ 8 * buf.getD 2 0 + buf.getD 3 0)
      | .little =>
          .ok (2 ^ 24 * buf.getD 3 0 + 2 ^ 16 * buf.getD 2 0 +
            2 ^ 8 * buf.getD 1 0 + buf.getD 0 0)
  | _ => .error (PluginError.config "unsupported length_bytes")

/-- Model of `LengthPrefixedFraming::decode`: incomplete until the header is present;
read the payload length; enforce `max_payload` when limited; incomplete until
header plus payload are present; then return the payload and the total
consumed byte count. -/
def LengthPrefixedFraming.decode (f : LengthPrefixedFraming) (buf : List Nat) :
    Except PluginError (Option (List Nat × Nat)) :=
  if buf.length < f.length_bytes then
    .ok none
  else do
    let len ← lpReadLen f buf
    if f.max_payload > 0 ∧ len > f.max_payload then
      .error (PluginError.format_err "payload too large")
    else
      let total := f.length_bytes + len
      if buf.length < total then
        .ok none
      else
        .ok (some ((buf.drop f.length_bytes).take len, total))

/-- Round-trip through the length-prefixed framing starting from an empty
output buffer. -/
def lpRoundtrip (f : LengthPrefixedFraming) (x : List Nat) :
    Except PluginError (Option (List Nat × Nat)) := do
  let w ← f.encode x []
  f.decode w

/-! ## In-memory ring-buffer storage — `MemoryStorage` in
`src/libs/topic-engine/src/lib.rs` -/

/-- One iteration of the loop in `MemoryStorage::save`: if the buffer has
reached `max_records`, pop the oldest record, then push the new one.  The
buffer is a list with the oldest record at the head (the `VecDeque` front). -/
def memorySaveOne (max_records : Nat) (buf : List TopicRecord) (r : TopicRecord) :
    List TopicRecord :=
  (if buf.length ≥ max_records then buf.drop 1 else buf) ++ [r]

/-- Model of `MemoryStorage::save`: fold the per-record loop over the batch.  The Rust
implementation always returns `Ok(())`; the model returns the new buffer. -/
def memorySave (max_records : Nat) (buf : List TopicRecord)
    (records : List TopicRecord) : List TopicRecord :=
  records.foldl (memorySaveOne max_records) buf

/-- The filter closure inside `MemoryStorage::query`, with its early
`return false` branches folded into a conjunction. -/
def queryMatches (q : TopicQuery) (r : TopicRecord) : Bool :=
  (match q.key with
   | some k => r.key == k
   | none => true) &&
  (match q.from_ms with
   | some f => decide (¬ r.ts_ms < f)
   | none => true) &&
  (match q.to_ms with
   | some t => decide (¬ r.ts_ms ≥ t)
   | none => true)

/-- Model of `MemoryStorage::query`: filter the buffer, then, when a limit is set and
exceeded, `split_off(len - limit)` — keep only the last `limit` elements. -/
def memoryQuery (q : TopicQuery) (buf : List TopicRecord) :
    Except PluginError (List TopicRecord) :=
  let result := buf.filter (queryMatches q)
  let result :=
    match q.limit with
    | some limit =>
        if result.length > limit then result.drop (result.length - limit)
        else result
    | none => result
  .ok result

/-- Spec-side description of the query filters, from §4.2 of the spec:
key equal to `query.key` when present, `ts_ms >= from_ms` when present
(inclusive), `ts_ms < to_ms` when present (exclusive). -/
def specMatches (q : TopicQuery) (r : TopicRecord) : Bool :=
  (q.key.all fun k => r.key == k) &&
  (q.from_ms.all fun f => decide (f ≤ r.ts_ms)) &&
  (q.to_ms.all fun t => decide (r.ts_ms < t))

/-- The last `n` elements of a list — the `n` most recent records when the
list is in save order (oldest first). -/
def takeLast (n : Nat) (l : List α) : List α :=
  l.drop (l.length - n)

/-! ## Publish-notify — `Topic::publish` in `src/libs/topic-engine/src/lib.rs` -/

/-- A bounded mpsc channel as seen from the publishing side: pending queue,
capacity, and whether the receiver is gone. -/
structure Channel where
  queue : List TopicRecord
  capacity : Nat
  closed : Bool
deriving DecidableEq, Repr

/-- Model of `Subscriber` from `src/libs/topic-engine/src/lib.rs`: a sender plus an
overflow policy. -/
structure Subscriber where
  tx : Channel
  overflow : OverflowPolicy
deriving DecidableEq, Repr

/-- Model of `Vec::swap_remove(i)`: remove element `i`, moving the last element into
its place. -/
def swapRemove (l : List α) (i : Nat) : List α :=
  match l.getLast? with
  | none => l
  | some b => (l.set i b).dropLast

/-- The subscriber notification loop of `Topic::publish` (step 2): walk the
subscriber vector by index; reap closed subscribers in place with
`swap_remove`; `Drop` subscribers get a `try_send` (a full channel drops the
record, leaving the channel as is); `BackPressure` subscribers get the record
handed to a detached sending task, modelled as an enqueue that is not limited
by the capacity (the task blocks until space frees up).  In this sequential
model a channel closed between the `is_closed` check and `try_send` cannot
occur, so the `TrySendError::Closed` arm coincides with the `is_closed` reap. -/
def notifyLoop (r : TopicRecord) (subs : List Subscriber) (i : Nat) :
    List Subscriber :=
  if h : i < subs.length then
    let sub := subs.get ⟨i, h⟩
    if sub.tx.closed then
      notifyLoop r (swapRemove subs i) i
    else
      match sub.overflow with
      | .drop =>
          if sub.tx.queue.length ≥ sub.tx.capacity then
            notifyLoop r subs (i + 1)
          else
            notifyLoop r
              (subs.set i { sub with tx := { sub.tx with queue := sub.tx.queue ++ [r] } })
              (i + 1)
      | .backPressure =>
          notifyLoop r
            (subs.set i { sub with tx := { sub.tx with queue := sub.tx.queue ++ [r] } })
            (i + 1)
  else
    subs
termination_by subs.length - i
decreasing_by
  all_goals first
  | · have hne : subs ≠ [] := by
        intro he
        rw [he] at h
        simp at h
      have hlast : ∃ b, subs.getLast? = some b := by
        cases hl : subs.getLast? with
        | none => exact absurd (List.getLast?_eq_none_iff.mp hl) hne
        | some b => exact ⟨b, rfl⟩
      obtain ⟨b, hb⟩ := hlast
      have : (swapRemove subs i).length = subs.length - 1 := by
        unfold swapRemove
        rw [hb]
        simp [List.length_dropLast, List.length_set]
      omega
  | · simp only [List.length_set]
      omega

/-- Model of `TopicError` from `src/libs/topic-engine/src/error.rs`. -/
inductive TopicError
  | notFound (name : String)
  | storage (e : PluginError)
deriving DecidableEq, Repr

/-- The state of a `Topic` relevant to `publish`: the storage backend state
(abstract, of type `σ`) and the subscriber vector.  `storageSave` stands for
the storage plugin's `save`, which may fail with a `PluginError`. -/
structure TopicState (σ : Type) where
  name : String
  storage : σ
  subscribers : List Subscriber
deriving Repr

/-- Model of `Topic::publish`: persist the single-record batch first; on storage error
return the error at once (the subscriber lock is never taken, the subscriber
vector is untouched).  On success run the notification loop. -/
def publish {σ : Type} (storageSave : σ → List TopicRecord → Except PluginError σ)
    (st : TopicState σ) (r : TopicRecord) : TopicState σ × Option TopicError :=
  match storageSave st.storage [r] with
  | .error e => (st, some (.storage e))
  | .ok s' =>
      ({ st with storage := s', subscribers := notifyLoop r st.subscribers 0 }, none)

/-! ## Topic registry — `src/libs/gauss-engine/src/topic.rs` -/

/-- A storage plugin instance as held by a `Topic`: the `.so` path it was
created from (its identity, fixed at creation) and its opaque internal state.
`reconfigure` acts on the state only — it is a method on the same loaded
object and cannot change which plugin backs the topic. -/
structure StoragePlugin where
  path : String
  state : Nat
deriving DecidableEq, Repr

/-- Model of `Topic` from `src/libs/gauss-engine/src/topic.rs`: a name plus its
storage plugin (the broadcast notification channel is irrelevant to the
claims settled here). -/
structure ETopic where
  name : String
  storage : StoragePlugin
deriving DecidableEq, Repr

/-- Model of `TopicRegistry` from `src/libs/gauss-engine/src/topic.rs`: the name-keyed
`HashMap`, modelled as a lookup function. -/
def TopicRegistry : Type := String → Option ETopic

/-- Model of `TopicRegistry::register`: unconditionally `HashMap::insert` — a new
binding for the topic name, replacing any previous one. -/
def TopicRegistry.register (reg : TopicRegistry) (t : ETopic) : TopicRegistry :=
  fun n => if n = t.name then some t else reg n

/-! ## Engine bootstrap and SIGHUP reload — `src/libs/gauss-engine/src/bootstrap.rs` -/

/-- Model of `EngineError` from `src/libs/gauss-engine/src/error.rs`, restricted to
the constructors exercised by `Engine::reload`. -/
inductive EngineError
  | configErr (msg : String)
  | topicNotFound (name : String)
deriving DecidableEq, Repr

/-- Model of `TopicConfig` from `src/libs/gauss-engine/src/config.rs`.  The config
subtree type (`toml::Value`) is abstracted as a parameter `γ` compared for
equality, exactly as the Rust compares `storage_config` with `==`. -/
structure TopicConfig (γ : Type) where
  name : String
  storage : String
  storage_config : Option γ
deriving DecidableEq, Repr

/-- Model of `ProcessorSourceConfig` from `src/libs/gauss-engine/src/config.rs`. -/
structure ProcessorSourceConfig where
  topic : String
  read : String
deriving DecidableEq, Repr

/-- Model of `ProcessorTargetConfig` from `src/libs/gauss-engine/src/config.rs`. -/
structure ProcessorTargetConfig where
  topic : String
deriving DecidableEq, Repr

/-- Model of `ProcessorConfig` from `src/libs/gauss-engine/src/config.rs`. -/
structure ProcessorConfig (γ : Type) where
  name : String
  plugin : String
  source : Option ProcessorSourceConfig
  target : Option ProcessorTargetConfig
  config : Option γ
deriving DecidableEq, Repr

/-- The slice of `GaussConfig` that `Engine::reload` consults. -/
structure GaussConfig (γ : Type) where
  topics : List (TopicConfig γ)
  processors : List (ProcessorConfig γ)
deriving DecidableEq, Repr

/-- A running processor slot (`ProcessorSlot` in bootstrap.rs): its name and
an identity distinguishing the spawned instance. -/
structure ProcessorSlot where
  name : String
  id : Nat
deriving DecidableEq, Repr

/-- The engine state mutated by `Engine::reload`: the topic registry, the
processor slots, and the live configuration. -/
structure EngineState (γ : Type) where
  registry : TopicRegistry
  processors : List ProcessorSlot
  config : GaussConfig γ

/-- The effectful collaborators of `Engine::reload`, abstracted:

* `createStorage` — `create_storage` followed by `storage.init`
  (bootstrap.rs, topic-creation path); yields the storage plugin instance,
  whose `path` records which `.so` it came from;
* `validateAndReconfigure old new state` — the reconfiguration pipeline for
  an existing topic AFTER the plugin-path equality check (bootstrap.rs lines
  147–182: `PluginLib::load`, `config_params`, `parse_toml_config` on both
  subtrees, `validate_and_build`, `check_sighup_changes`, then
  `storage.reconfigure`); it may only produce a new internal state for the
  same plugin object;
* `spawnProc` — `spawn_processor`. -/
structure ReloadEnv (γ : Type) where
  createStorage : TopicConfig γ → Except EngineError StoragePlugin
  validateAndReconfigure :
    TopicConfig γ → TopicConfig γ → Nat → Except EngineError Nat
  spawnProc : ProcessorConfig γ → Except EngineError ProcessorSlot

/-- Reload phase 1 (bootstrap.rs lines 96–104): the first old topic missing
from the new config, if any — deletions are forbidden. -/
def findDeletedTopic {γ : Type} (old new : List (TopicConfig γ)) :
    Option (TopicConfig γ) :=
  old.find? fun ot => !(new.any fun t => t.name == ot.name)

/-- Reload phase 2 (bootstrap.rs lines 107–124): create, init and register
every topic of the new config that did not exist in the old config.  On the
first failure the loop stops, keeping the registrations made so far. -/
def registerNewTopics {γ : Type} (env : ReloadEnv γ)
    (oldTopics : List (TopicConfig γ)) (reg : TopicRegistry) :
    List (TopicConfig γ) → TopicRegistry × Option EngineError
  | [] => (reg, none)
  | t :: ts =>
      if oldTopics.any fun o => o.name == t.name then
        registerNewTopics env oldTopics reg ts
      else
        match env.createStorage t with
        | .error e => (reg, some e)
        | .ok storage =>
            registerNewTopics env oldTopics
              (reg.register ⟨t.name, storage⟩) ts

/-- In-place mutation of the topic object bound to `key` in the registry, as
seen through the registry: the binding for `key` now shows the mutated
object, every other binding is untouched.  (In the Rust the mutation happens
through the `Arc` returned by `get`, so the map itself never changes.) -/
def registryUpdate (reg : TopicRegistry) (key : String) (t : ETopic) :
    TopicRegistry :=
  fun n => if n = key then some t else reg n

/-- Reload phase 3 (bootstrap.rs lines 127–183): for every topic of the new
config that existed in the old config, skip it when `storage_config` is
unchanged; otherwise reject a changed storage plugin path, then run the
validate-and-reconfigure pipeline, which updates the internal state of the
same storage object (the registry keeps the same plugin path). -/
def reconfigureTopics {γ : Type} [DecidableEq γ] (env : ReloadEnv γ)
    (oldTopics : List (TopicConfig γ)) (reg : TopicRegistry) :
    List (TopicConfig γ) → TopicRegistry × Option EngineError
  | [] => (reg, none)
  | t :: ts =>
      match oldTopics.find? (fun o => o.name == t.name) with
      | none => reconfigureTopics env oldTopics reg ts
      | some o =>
          if o.storage_config = t.storage_config then
            reconfigureTopics env oldTopics reg ts
          else if o.storage ≠ t.storage then
            (reg, some (.configErr
              "storage plugin path cannot be changed at runtime (requires restart)"))
          else
            match reg t.name with
            | none => (reg, some (.topicNotFound t.name))
            | some topic =>
                match env.validateAndReconfigure o t topic.storage.state with
                | .error e => (reg, some e)
                | .ok newState =>
                    reconfigureTopics env oldTopics
                      (registryUpdate reg t.name
                        ⟨topic.name, ⟨topic.storage.path, newState⟩⟩) ts

/-- Model of `processor_config_changed` from bootstrap.rs. -/
def processorConfigChanged {γ : Type} [DecidableEq γ]
    (old new : ProcessorConfig γ) : Bool :=
  old.plugin ≠ new.plugin || old.config ≠ new.config ||
    old.source ≠ new.source ||
    (old.target.map (·.topic)) ≠ (new.target.map (·.topic))

/-- Reload processor phase, part 2 (bootstrap.rs lines 204–235): for each
processor of the new config, recreate it when changed or new, keep the
existing slot otherwise.  On a spawn failure the loop stops; the slots built
so far and the kept slots are dropped, as in the Rust where the drained
vectors go out of scope on the error return. -/
def rebuildProcessors {γ : Type} [DecidableEq γ] (env : ReloadEnv γ)
    (oldProcs : List (ProcessorConfig γ)) (kept : List ProcessorSlot)
    (acc : List ProcessorSlot) :
    List (ProcessorConfig γ) → Except EngineError (List ProcessorSlot)
  | [] => .ok acc
  | p :: ps =>
      let changed :=
        match oldProcs.find? (fun o => o.name == p.name) with
        | none => true
        | some old => processorConfigChanged old p
      if changed then
        let kept' := kept.filter fun s => s.name ≠ p.name
        match env.spawnProc p with
        | .error e => .error e
        | .ok slot => rebuildProcessors env oldProcs kept' (acc ++ [slot]) ps
      else
        match kept.find? (fun s => s.name == p.name) with
        | some slot =>
            rebuildProcessors env oldProcs
              (kept.filter fun s => s.name ≠ p.name) (acc ++ [slot]) ps
        | none => rebuildProcessors env oldProcs kept acc ps

/-- Model of `Engine::reload` (bootstrap.rs lines 90–242).  Returns the engine state
after the call together with the error, if any: the Rust method mutates
`&mut self`, so mutations made before a failure persist.  Order of phases:
deleted-topic check, new-topic registration, existing-topic reconfiguration,
processor stop/recreate/keep, then commit the new config. -/
def reload {γ : Type} [DecidableEq γ] (env : ReloadEnv γ) (st : EngineState γ)
    (newConfig : GaussConfig γ) : EngineState γ × Option EngineError :=
  match findDeletedTopic st.config.topics newConfig.topics with
  | some _ =>
      (st, some (.configErr "topic cannot be deleted at runtime (requires restart)"))
  | none =>
      match registerNewTopics env st.config.topics st.registry newConfig.topics with
      | (reg, some e) => ({ st with registry := reg }, some e)
      | (reg, none) =>
          match reconfigureTopics env st.config.topics reg newConfig.topics with
          | (reg', some e) => ({ st with registry := reg' }, some e)
          | (reg', none) =>
              let kept := st.processors.filter fun s =>
                newConfig.processors.any fun p => p.name == s.name
              match rebuildProcessors env st.config.processors kept []
                  newConfig.processors with
              | .error e =>
                  ({ st with registry := reg', processors := [] }, some e)
              | .ok procs =>
                  ({ registry := reg', processors := procs, config := newConfig },
                    none)

/-! ## Plugin loading — `load_plugin` in `src/libs/plugin-host/src/lib.rs` -/

/-- The host ABI version, `QS_ABI_VERSION` in `src/libs/api/src/lib.rs`. -/
def QS_ABI_VERSION : Nat := 3

/-- Model of `PluginCreateResult` as observed through the FFI: exactly one of the
error string (the owned string behind `error_ptr`) and the object
(`plugin_ptr`) should be set, but the model allows any combination, as the
host must defend against all of them. -/
structure CreateResult (T : Type) where
  errorMsg : Option String
  plugin : Option T

/-- A loaded shared library as seen by `load_plugin`: the value returned by
`qs_abi_version` when the symbol resolves (`none` = missing symbol), and the
result the `create_<kind>` symbol would produce when called (`none` =
missing symbol). -/
structure PluginLibModel (T : Type) where
  abiVersion : Option Nat
  createFn : Option (CreateResult T)

/-- Model of `load_plugin` from `src/libs/plugin-host/src/lib.rs`: resolve and call
`qs_abi_version`, refuse on mismatch, then resolve and call the create
symbol, then check the error pointer, then the object pointer.  The boolean
records whether the create function was invoked. -/
def loadPlugin {T : Type} (hostVersion : Nat) (lib : PluginLibModel T) :
    Except PluginError T × Bool :=
  match lib.abiVersion with
  | none =>
      (.error (PluginError.config "plugin does not export qs_abi_version"), false)
  | some v =>
      if v ≠ hostVersion then
        (.error (PluginError.config "ABI version mismatch"), false)
      else
        match lib.createFn with
        | none => (.error (PluginError.config "create symbol not found"), false)
        | some res =>
            match res.errorMsg with
            | some msg => (.error (PluginError.config msg), true)
            | none =>
                match res.plugin with
                | some p => (.ok p, true)
                | none => (.error (PluginError.config "plugin returned null"), true)

/-- The gauss-engine host ABI version, `QS_ABI_VERSION` in
`src/libs/gauss-api/src/ffi.rs`. -/
def GAUSS_ABI_VERSION : Nat := 2

/-- Symbols of a library as resolved by `PluginLib::load` in
`src/libs/gauss-engine/src/plugin_host.rs`. -/
structure PluginLibSyms where
  abiVersion : Option Nat
  hasConfigParams : Bool
  hasCreate : Bool
  hasDestroy : Bool

/-- Model of `PluginLib::load`: check `qs_abi_version` against the host constant
before resolving the `config_params`, create and destroy symbols; the create
function is not called during `load` at all (it runs later through
`PluginLib::create`), so a version mismatch can never reach it. -/
def pluginLibLoad (hostVersion : Nat) (syms : PluginLibSyms) :
    Except EngineError Unit :=
  match syms.abiVersion with
  | none => .error (.configErr "plugin missing qs_abi_version symbol")
  | some v =>
      if v ≠ hostVersion then
        .error (.configErr "plugin ABI version mismatch")
      else if !syms.hasConfigParams then
        .error (.configErr "plugin missing qs_config_params symbol")
      else if !syms.hasCreate then
        .error (.configErr "plugin missing create symbol")
      else if !syms.hasDestroy then
        .error (.configErr "plugin missing destroy symbol")
      else
        .ok ()

/-! ## Codec passthrough and the sink encode chain —
`src/plugins/format/{json,csv,avro}/src` and `src/libs/pipeline/src/endpoint.rs` -/

/-- Model of `JsonCodec::encode` from `src/plugins/format/json/src/lib.rs`: data
already tagged `json` is passed through byte-for-byte; any other tag is a
format error. -/
def jsonCodecEncode (data : RecordData) : Except PluginError (List Nat) :=
  match data.format with
  | .json => .ok data.bytes
  | _ => .error (PluginError.format_err "JSON codec: cannot encode other format data")

/-- Model of `CsvCodec::encode` from `src/plugins/format/csv/src/lib.rs`: same
passthrough pattern for the `csv` tag. -/
def csvCodecEncode (data : RecordData) : Except PluginError (List Nat) :=
  match data.format with
  | .csv => .ok data.bytes
  | _ => .error (PluginError.format_err "CSV codec: cannot encode other format data")

/-- Model of `AvroCodec::encode` from `src/plugins/format/avro/src/lib.rs`: same
passthrough pattern for the `avro` tag. -/
def avroCodecEncode (data : RecordData) : Except PluginError (List Nat) :=
  match data.format with
  | .avro => .ok data.bytes
  | _ => .error (PluginError.format_err "Avro codec: cannot encode other format data")

/-- A middleware as used by the encode chain: its `encode` byte transform. -/
structure MiddlewareFn where
  encodeFn : List Nat → Except PluginError (List Nat)

/-- Model of `encode_to_wire` from `src/libs/pipeline/src/endpoint.rs`:
`codec.encode`, then the middleware encodes in reverse (onion) order, then
`framing.encode` into the output buffer. -/
def encodeToWire (codecEncode : RecordData → Except PluginError (List Nat))
    (framingEncode : List Nat → List Nat → Except PluginError (List Nat))
    (middleware : List MiddlewareFn) (record : TopicRecord) (out : List Nat) :
    Except PluginError (List Nat) := do
  let data ← codecEncode record.data
  let data ← middleware.reverse.foldlM (fun d mw => mw.encodeFn d) data
  framingEncode data out

/-- The encode chain applied to raw bytes directly, bypassing the codec:
middleware (reverse order) then framing.  Used to state that a passthrough
codec contributes nothing to the wire bytes. -/
def wireFromRawBytes
    (framingEncode : List Nat → List Nat → Except PluginError (List Nat))
    (middleware : List MiddlewareFn) (bytes : List Nat) (out : List Nat) :
    Except PluginError (List Nat) := do
  let data ← middleware.reverse.foldlM (fun d mw => mw.encodeFn d) bytes
  framingEncode data out

/-! ## Helper lemmas -/

/-- Position of the first `p`-satisfying element appended to the right of a
list none of whose elements satisfy `p`. -/
theorem findIdx?_append_last {α : Type} (p : α → Bool) (x : List α) (b : α)
    (hp : ∀ a ∈ x, p a = false) (hb : p b = true) :
    ∀ i, List.findIdx? p (x ++ [b]) i = some (i + x.length) := by
  induction x with
  | nil =>
      intro i
      simp [List.findIdx?_cons, hb]
  | cons a t ih =>
      intro i
      have ha : p a = false := hp a (by simp)
      have ht : ∀ a ∈ t, p a = false := fun a h => hp a (by simp [h])
      simp only [List.cons_append, List.findIdx?_cons, ha, Bool.false_eq_true, if_false]
      rw [ih ht (i + 1)]
      simp [List.length_cons]
      omega

/-- Decoding a buffer made of an `n`-byte header followed by a payload, when
reading the header back yields exactly the payload length. -/
theorem lp_decode_of_header (f : LengthPrefixedFraming) (header x : List Nat)
    (hh : header.length = f.length_bytes)
    (hread : lpReadLen f (header ++ x) = .ok x.length)
    (hmax : f.max_payload = 0 ∨ x.length ≤ f.max_payload) :
    f.decode (header ++ x) = .ok (some (x, f.length_bytes + x.length)) := by
  have hlen : (header ++ x).length = f.length_bytes + x.length := by
    simp [List.length_append, hh]
  unfold LengthPrefixedFraming.decode
  rw [if_neg (by omega), hread]
  simp only [Bind.bind, Except.bind]
  rw [if_neg (by rcases hmax with h | h <;> omega), if_neg (by omega)]
  rw [← hh, List.drop_left, List.take_length]

/-! ## C7 — lines framing round-trip -/

/-- Claim C7 counterexample: the byte string `[13]` (a lone carriage return)
contains no newline, yet `decode(encode([13]))` under lines framing with
`max_length = 0` yields the empty frame, not `[13]`: the decoder trims a
trailing carriage return that the encoder never wrote. -/
theorem lines_roundtrip_trailing_cr_counterexample :
    (10 ∉ ([13] : List Nat)) ∧
      linesRoundtrip ⟨0⟩ [13] = .ok (some (([] : List Nat), 2)) ∧
      (([] : List Nat) ≠ [13]) := by
  refine ⟨by decide, ?_, by decide⟩
  rfl

/-- Claim C7 (amended): for lines framing with `max_length = 0`,
`decode(encode(x))` yields the frame `x` with all `x.length + 1` encoded
bytes consumed, for every byte string `x` that contains no newline byte and
does not end with a carriage-return byte. -/
theorem lines_roundtrip (x : List Nat) (hnl : 10 ∉ x)
    (hcr : x.getLast? ≠ some 13) :
    linesRoundtrip ⟨0⟩ x = .ok (some (x, x.length + 1)) := by
  have hfind : List.findIdx? (fun b => b == 10) (x ++ [10]) 0 = some x.length := by
    have := findIdx?_append_last (fun b => b == 10) x 10
      (fun a ha => by
        simp only [beq_eq_false_iff_ne, ne_eq]
        exact fun h => hnl (h ▸ ha)) (by simp) 0
    simpa using this
  simp only [linesRoundtrip, LinesFraming.encode, LinesFraming.decode, List.nil_append,
    Bind.bind, Except.bind]
  rw [hfind]
  simp only [List.take_left]
  rw [if_neg hcr]
  simp

/-- Claim C7 witness: the amended round-trip at the concrete frame
`[65, 66]`. -/
theorem lines_roundtrip_witness :
    linesRoundtrip ⟨0⟩ [65, 66] = .ok (some ([65, 66], 3)) :=
  lines_roundtrip [65, 66] (by decide) (by decide)

/-! ## C8 — length-prefixed framing round-trip -/

/-- Claim C8: for the length-prefixed framing with any supported header size
(1, 2 or 4 bytes) and either byte order, `decode(encode(x))` yields the frame
`x` with all header-plus-payload bytes consumed, for every byte string `x`
whose length fits the configured header and, when `max_payload > 0`, does not
exceed it. -/
theorem lp_roundtrip_ok (f : LengthPrefixedFraming) (x : List Nat)
    (hn : f.length_bytes = 1 ∨ f.length_bytes = 2 ∨ f.length_bytes = 4)
    (hfit : x.length < 2 ^ (8 * f.length_bytes))
    (hmax : f.max_payload = 0 ∨ x.length ≤ f.max_payload) :
    lpRoundtrip f x = .ok (some (x, f.length_bytes + x.length)) := by
  obtain ⟨n, bo, mp⟩ := f
  rcases hn with hn | hn | hn <;> subst hn
  · have h255 : ¬ x.length > 255 := by
      norm_num at hfit
      omega
    have henc : LengthPrefixedFraming.encode ⟨1, bo, mp⟩ x [] = .ok ([x.length] ++ x) := by
      unfold LengthPrefixedFraming.encode
      simp [h255]
    unfold lpRoundtrip
    rw [henc]
    simp only [Bind.bind, Except.bind]
    exact lp_decode_of_header _ _ _ (by simp) (by simp [lpReadLen]) hmax
  · have h65535 : ¬ x.length > 65535 := by
      norm_num at hfit
      omega
    cases bo
    · have henc : LengthPrefixedFraming.encode ⟨2, .big, mp⟩ x [] =
          .ok ([x.length / 256, x.length % 256] ++ x) := by
        unfold LengthPrefixedFraming.encode
        simp [h65535]
      unfold lpRoundtrip
      rw [henc]
      simp only [Bind.bind, Except.bind]
      refine lp_decode_of_header _ _ _ (by simp) ?_ hmax
      simp only [lpReadLen, List.cons_append, List.getD, List.getElem?_cons_zero,
        List.getElem?_cons_succ, Option.getD_some]
      norm_num
      omega
    · have henc : LengthPrefixedFraming.encode ⟨2, .little, mp⟩ x [] =
          .ok ([x.length % 256, x.length / 256] ++ x) := by
        unfold LengthPrefixedFraming.encode
        simp [h65535]
      unfold lpRoundtrip
      rw [henc]
      simp only [Bind.bind, Except.bind]
      refine lp_decode_of_header _ _ _ (by simp) ?_ hmax
      simp only [lpReadLen, List.cons_append, List.getD, List.getElem?_cons_zero,
        List.getElem?_cons_succ, Option.getD_some]
      norm_num
      omega
  · cases bo
    · have henc : LengthPrefixedFraming.encode ⟨4, .big, mp⟩ x [] =
          .ok ([x.length % 2 ^ 32 / 2 ^ 24, x.length % 2 ^ 32 / 2 ^ 16 % 256,
            x.length % 2 ^ 32 / 2 ^ 8 % 256, x.length % 2 ^ 32 % 256] ++ x) := by
        unfold LengthPrefixedFraming.encode
        rfl
      unfold lpRoundtrip
      rw [henc]
      simp only [Bind.bind, Except.bind]
      refine lp_decode_of_header _ _ _ (by simp) ?_ hmax
      simp only [lpReadLen, List.cons_append, List.getD, List.getElem?_cons_zero,
        List.getElem?_cons_succ, Option.getD_some]
      norm_num at hfit ⊢
      omega
    · have henc : LengthPrefixedFraming.encode ⟨4, .little, mp⟩ x [] =
          .ok ([x.length % 2 ^ 32 % 256, x.length % 2 ^ 32 / 2 ^ 8 % 256,
            x.length % 2 ^ 32 / 2 ^ 16 % 256, x.length % 2 ^ 32 / 2 ^ 24] ++ x) := by
        unfold LengthPrefixedFraming.encode
        rfl
      unfold lpRoundtrip
      rw [henc]
      simp only [Bind.bind, Except.bind]
      refine lp_decode_of_header _ _ _ (by simp) ?_ hmax
      simp only [lpReadLen, List.cons_append, List.getD, List.getElem?_cons_zero,
        List.getElem?_cons_succ, Option.getD_some]
      norm_num at hfit ⊢
      omega

/-- Claim C8 witness: the round-trip at a 2-byte big-endian header and the
concrete frame `[7, 8]`. -/
theorem lp_roundtrip_ok_witness :
    lpRoundtrip ⟨2, .big, 0⟩ [7, 8] = .ok (some ([7, 8], 4)) :=
  lp_roundtrip_ok ⟨2, .big, 0⟩ [7, 8] (by decide) (by decide) (by decide)

/-! ## C1 — publish returns the storage error without notifying subscribers -/

/-- Claim C1: for every topic state and record, if the storage save fails,
`Topic::publish` returns that storage error and the whole topic state —
in particular the subscriber list and every subscriber channel — is exactly
what it was before the call. -/
theorem publish_storage_error_preserves_subscribers {σ : Type}
    (storageSave : σ → List TopicRecord → Except PluginError σ)
    (st : TopicState σ) (r : TopicRecord) (e : PluginError)
    (h : storageSave st.storage [r] = .error e) :
    publish storageSave st r = (st, some (.storage e)) := by
  unfold publish
  rw [h]

/-- Claim C1 witness: a concrete always-failing storage, with one live
subscriber, at a concrete record. -/
theorem publish_storage_error_preserves_subscribers_witness :
    publish (fun (_ : Nat) (_ : List TopicRecord) =>
        (Except.error ⟨.io, "disk full"⟩ : Except PluginError Nat))
      ⟨"quotes", 0, [⟨⟨[], 4, false⟩, .drop⟩]⟩ ⟨5, "X", ⟨[], .json⟩⟩ =
      (⟨"quotes", 0, [⟨⟨[], 4, false⟩, .drop⟩]⟩, some (.storage ⟨.io, "disk full"⟩)) :=
  publish_storage_error_preserves_subscribers _ _ _ _ rfl

/-! ## C2 — duplicate registration -/

/-- Claim C2 counterexample: a registry holding topic `a` backed by plugin
`p1.so`; registering another topic named `a` (backed by `p2.so`) is not
rejected — the previous topic is replaced, so its storage identity is lost. -/
theorem register_duplicate_counterexample :
    (TopicRegistry.register
        (fun n => if n = "a" then some ⟨"a", ⟨"p1.so", 0⟩⟩ else none)
        ⟨"a", ⟨"p2.so", 0⟩⟩) "a" = some ⟨"a", ⟨"p2.so", 0⟩⟩ ∧
      (⟨"a", ⟨"p2.so", 0⟩⟩ : ETopic) ≠ ⟨"a", ⟨"p1.so", 0⟩⟩ := by
  constructor
  · rfl
  · decide

/-- Claim C2 (amended): `TopicRegistry::register` performs an unconditional
insert — registering a topic whose name is already present replaces the
previously registered topic (last write wins); bindings for every other name
are unchanged.  No duplicate rejection is performed. -/
theorem register_last_write_wins (reg : TopicRegistry) (t : ETopic) :
    (reg.register t) t.name = some t ∧
      ∀ n, n ≠ t.name → (reg.register t) n = reg n := by
  constructor
  · simp [TopicRegistry.register]
  · intro n hn
    simp [TopicRegistry.register, hn]

/-- Claim C2 witness: the amended behaviour at a concrete registry. -/
theorem register_last_write_wins_witness :
    TopicRegistry.register
        (fun n => if n = "a" then some (⟨"a", ⟨"p1.so", 0⟩⟩ : ETopic) else none)
        ⟨"a", ⟨"p2.so", 7⟩⟩ "a" = some ⟨"a", ⟨"p2.so", 7⟩⟩ ∧
      TopicRegistry.register
        (fun n => if n = "a" then some (⟨"a", ⟨"p1.so", 0⟩⟩ : ETopic) else none)
        ⟨"a", ⟨"p2.so", 7⟩⟩ "b" = none := by
  refine ⟨(register_last_write_wins _ ⟨"a", ⟨"p2.so", 7⟩⟩).1, ?_⟩
  rw [(register_last_write_wins
    (fun n => if n = "a" then some (⟨"a", ⟨"p1.so", 0⟩⟩ : ETopic) else none)
    ⟨"a", ⟨"p2.so", 7⟩⟩).2 "b" (by decide)]
  rfl

/-! ## C9 — ABI version mismatch refuses the load before `create_*` -/

/-- Claim C9: a plugin library whose `qs_abi_version` returns a value
different from the host's compiled-in ABI version is refused with a config
error, and its create function is never invoked — in both plugin hosts:
`load_plugin` (src/libs/plugin-host) reports the mismatch with the
create-invoked flag still false, and `PluginLib::load`
(src/libs/gauss-engine) fails before the create symbol is even resolved. -/
theorem abi_mismatch_never_invokes_create {T : Type} (hostVersion v : Nat)
    (lib : PluginLibModel T) (syms : PluginLibSyms)
    (hv : lib.abiVersion = some v) (hs : syms.abiVersion = some v)
    (hne : v ≠ hostVersion) :
    loadPlugin hostVersion lib =
        (.error (PluginError.config "ABI version mismatch"), false) ∧
      pluginLibLoad hostVersion syms =
        .error (.configErr "plugin ABI version mismatch") := by
  constructor
  · unfold loadPlugin
    rw [hv]
    simp [hne]
  · unfold pluginLibLoad
    rw [hs]
    simp [hne]

/-- Claim C9 witness: a concrete library reporting ABI version 1 against the
host versions 3 (`QS_ABI_VERSION`) and 2 (`GAUSS_ABI_VERSION`). -/
theorem abi_mismatch_never_invokes_create_witness :
    loadPlugin QS_ABI_VERSION
        (⟨some 1, some ⟨none, some 0⟩⟩ : PluginLibModel Nat) =
      (.error (PluginError.config "ABI version mismatch"), false) :=
  (abi_mismatch_never_invokes_create QS_ABI_VERSION 1
    (⟨some 1, some ⟨none, some 0⟩⟩ : PluginLibModel Nat)
    ⟨some 1, true, true, true⟩ rfl rfl (by decide)).1

/-! ## C4 — zero-copy passthrough of matching raw bytes -/

/-- Claim C4: for every record whose preserved wire-format tag equals the
sink codec's data format — the json tag under the JSON codec, and likewise
for the CSV and Avro codecs of the same interface generation — the codec
encode step returns the stored bytes unchanged rather than re-serializing,
so the bytes the sink writes on the wire equal the preserved raw bytes
modulo middleware and framing: `encode_to_wire` coincides with the
middleware-plus-framing chain applied to the raw bytes directly. -/
theorem codec_passthrough_zero_copy (record : TopicRecord)
    (framingEncode : List Nat → List Nat → Except PluginError (List Nat))
    (middleware : List MiddlewareFn) (out : List Nat) :
    (record.data.format = .json →
      jsonCodecEncode record.data = .ok record.data.bytes ∧
        encodeToWire jsonCodecEncode framingEncode middleware record out =
          wireFromRawBytes framingEncode middleware record.data.bytes out) ∧
    (record.data.format = .csv →
      csvCodecEncode record.data = .ok record.data.bytes ∧
        encodeToWire csvCodecEncode framingEncode middleware record out =
          wireFromRawBytes framingEncode middleware record.data.bytes out) ∧
    (record.data.format = .avro →
      avroCodecEncode record.data = .ok record.data.bytes ∧
        encodeToWire avroCodecEncode framingEncode middleware record out =
          wireFromRawBytes framingEncode middleware record.data.bytes out) := by
  refine ⟨fun h => ⟨?_, ?_⟩, fun h => ⟨?_, ?_⟩, fun h => ⟨?_, ?_⟩⟩ <;>
    simp [jsonCodecEncode, csvCodecEncode, avroCodecEncode, encodeToWire,
      wireFromRawBytes, h, Bind.bind, Except.bind]

/-- Claim C4 witness: a json-tagged record under the JSON codec, no
middleware, lines framing. -/
theorem codec_passthrough_zero_copy_witness :
    jsonCodecEncode ⟨[1, 2], .json⟩ = .ok [1, 2] ∧
      encodeToWire jsonCodecEncode (LinesFraming.encode ⟨0⟩) []
          ⟨9, "X", ⟨[1, 2], .json⟩⟩ [] =
        wireFromRawBytes (LinesFraming.encode ⟨0⟩) [] [1, 2] [] :=
  (codec_passthrough_zero_copy ⟨9, "X", ⟨[1, 2], .json⟩⟩
    (LinesFraming.encode ⟨0⟩) [] []).1 rfl

/-! ## C3 — memory storage query semantics -/

/-- Claim C3: for every buffer of stored records and every query, the
in-memory storage returns exactly the stored records matching the filters of
the spec — key equal to `query.key` when present, `ts_ms >= from_ms` when
present (inclusive), `ts_ms < to_ms` when present (exclusive), in stored
(save) order — and when a limit is present (this query generation has no
offset field) it returns the `limit` most recent matching records, still in
that order. -/
theorem memory_query_filters_and_limit (buf : List TopicRecord) (q : TopicQuery) :
    memoryQuery q buf =
      .ok (match q.limit with
        | none => buf.filter (specMatches q)
        | some l => takeLast l (buf.filter (specMatches q))) := by
  have hmatch : ∀ r, queryMatches q r = specMatches q r := by
    intro r
    unfold queryMatches specMatches
    rcases q with ⟨k, f, t, l⟩
    cases k <;> cases f <;> cases t <;>
      simp [Option.all, decide_eq_decide, Int.not_lt, Int.not_le]
  have hfilter : buf.filter (queryMatches q) = buf.filter (specMatches q) :=
    List.filter_congr fun r _ => hmatch r
  unfold memoryQuery
  rw [hfilter]
  cases hl : q.limit with
  | none => rfl
  | some l =>
      simp only [takeLast]
      split
      · rfl
      · rename_i hle
        have : (List.filter (specMatches q) buf).length - l = 0 := by omega
        rw [this, List.drop_zero]

/-! ## C10 — ring-buffer save invariant -/

/-- Length of the last-`n`-elements suffix. -/
theorem takeLast_length (n : Nat) (l : List α) :
    (takeLast n l).length = min n l.length := by
  unfold takeLast
  simp [List.length_drop]
  omega

/-- One save step on a buffer that is the last-`max m 1` suffix of the
records so far extends the suffix by the new record. -/
theorem saveOne_takeLast (m : Nat) (rs : List TopicRecord) (r : TopicRecord) :
    memorySaveOne m (takeLast (max m 1) rs) r = takeLast (max m 1) (rs ++ [r]) := by
  unfold memorySaveOne takeLast
  by_cases hLM : rs.length < max m 1
  · have h0 : rs.length - max m 1 = 0 := by omega
    have happ : (rs ++ [r]).length - max m 1 = 0 := by
      simp [List.length_append]
      omega
    rw [h0, List.drop_zero, happ, List.drop_zero]
    by_cases hm : rs.length ≥ m
    · have hm0 : m = 0 := by omega
      have hlen0 : rs.length = 0 := by omega
      have hnil : rs = [] := List.eq_nil_of_length_eq_zero hlen0
      subst hnil
      simp [hm]
    · rw [if_neg (by simpa using hm)]
  · have hge : (rs.drop (rs.length - max m 1)).length ≥ m := by
      simp [List.length_drop]
      omega
    rw [if_pos hge, List.drop_drop]
    have happlen : (rs ++ [r]).length - max m 1 = (rs.length - max m 1) + 1 := by
      simp [List.length_append]
      omega
    rw [happlen, List.drop_append_of_le_length (by omega)]

/-- Closed form for a sequence of saves starting from the fresh buffer of
`MemoryStorage::new`: the buffer is the `max m 1` most recent records. -/
theorem memorySave_closed_form (m : Nat) (rs : List TopicRecord) :
    memorySave m [] rs = takeLast (max m 1) rs := by
  induction rs using List.reverseRecOn with
  | nil => simp [memorySave, takeLast]
  | append_singleton rs r ih =>
      unfold memorySave at ih ⊢
      rw [List.foldl_append]
      simp only [List.foldl_cons, List.foldl_nil]
      rw [ih]
      exact saveOne_takeLast m rs r

/-- Claim C10: for every capacity `max_records >= 1` and every sequence of
records saved into the fresh in-memory buffer, the buffer afterwards is
exactly the `min(total, max_records)` most recently saved records in save
order; for `max_records = 0` the buffer still retains the single most recent
record rather than none.  Since the state after each save of a sequence of
save calls is the fold over all records saved so far, this settles the
buffer contents after every save. -/
theorem memory_save_ring_buffer (m : Nat) (records : List TopicRecord) :
    (1 ≤ m →
      memorySave m [] records = takeLast m records ∧
        (memorySave m [] records).length = min records.length m) ∧
    (m = 0 →
      memorySave m [] records = takeLast 1 records ∧
        (records ≠ [] → (memorySave m [] records).length = 1)) := by
  have hcf := memorySave_closed_form m records
  constructor
  · intro hm
    have hM : max m 1 = m := by omega
    rw [hM] at hcf
    refine ⟨hcf, ?_⟩
    rw [hcf, takeLast_length]
    omega
  · intro hm
    subst hm
    rw [show max 0 1 = 1 from rfl] at hcf
    refine ⟨hcf, fun hne => ?_⟩
    rw [hcf, takeLast_length]
    have : records.length ≠ 0 := fun h0 => hne (List.eq_nil_of_length_eq_zero h0)
    omega

/-- Claim C10 witness: capacity 2 over three saved records, and capacity 0
over two saved records. -/
theorem memory_save_ring_buffer_witness :
    memorySave 2 [] [⟨1, "a", ⟨[], .json⟩⟩, ⟨2, "b", ⟨[], .json⟩⟩,
        ⟨3, "c", ⟨[], .json⟩⟩] =
      takeLast 2 [⟨1, "a", ⟨[], .json⟩⟩, ⟨2, "b", ⟨[], .json⟩⟩,
        ⟨3, "c", ⟨[], .json⟩⟩] ∧
    memorySave 0 [] [⟨1, "a", ⟨[], .json⟩⟩, ⟨2, "b", ⟨[], .json⟩⟩] =
      takeLast 1 [⟨1, "a", ⟨[], .json⟩⟩, ⟨2, "b", ⟨[], .json⟩⟩] :=
  ⟨((memory_save_ring_buffer 2 _).1 (by decide)).1,
    ((memory_save_ring_buffer 0 _).2 rfl).1⟩

/-! ## C6 — removing a topic makes SIGHUP reload fail before any mutation -/

/-- Claim C6: if the new configuration omits a topic present in the live
configuration, `Engine::reload` returns the deletion diagnostic before
performing any mutation: the returned engine state — registry, processor
slots and live configuration — is exactly the state before the call. -/
theorem reload_topic_deletion_rejected_without_mutation {γ : Type}
    [DecidableEq γ] (env : ReloadEnv γ) (st : EngineState γ)
    (newConfig : GaussConfig γ) (ot : TopicConfig γ)
    (hmem : ot ∈ st.config.topics)
    (hgone : ∀ t ∈ newConfig.topics, t.name ≠ ot.name) :
    (reload env st newConfig).1 = st ∧
      (reload env st newConfig).2 =
        some (.configErr "topic cannot be deleted at runtime (requires restart)") := by
  have hsome : (findDeletedTopic st.config.topics newConfig.topics).isSome := by
    rw [findDeletedTopic, List.find?_isSome]
    refine ⟨ot, hmem, ?_⟩
    simp only [Bool.not_eq_true', List.any_eq_false]
    intro t ht
    simpa using hgone t ht
  obtain ⟨d, hd⟩ := Option.isSome_iff_exists.mp hsome
  unfold reload
  rw [hd]
  exact ⟨rfl, rfl⟩

/-- Claim C6 witness: a live config with topic `A`, a new config with no
topics at all. -/
theorem reload_topic_deletion_rejected_without_mutation_witness :
    (reload (⟨fun t => .ok ⟨t.storage, 0⟩, fun _ _ s => .ok s,
          fun p => .ok ⟨p.name, 0⟩⟩ : ReloadEnv Nat)
        ⟨fun _ => none, [], ⟨[⟨"A", "p1.so", none⟩], []⟩⟩ ⟨[], []⟩).1 =
      ⟨fun _ => none, [], ⟨[⟨"A", "p1.so", none⟩], []⟩⟩ ∧
      (reload (⟨fun t => .ok ⟨t.storage, 0⟩, fun _ _ s => .ok s,
          fun p => .ok ⟨p.name, 0⟩⟩ : ReloadEnv Nat)
        ⟨fun _ => none, [], ⟨[⟨"A", "p1.so", none⟩], []⟩⟩ ⟨[], []⟩).2 =
      some (.configErr "topic cannot be deleted at runtime (requires restart)") :=
  reload_topic_deletion_rejected_without_mutation _ _ _ ⟨"A", "p1.so", none⟩
    (by decide) (by decide)

/-! ## C5 — changing a topic's storage plugin path on reload -/

/-- Claim C5 counterexample: live topic `A` runs on plugin `p1.so` with no
`storage_config`; the new config moves `A` to `p2.so`, also with no
`storage_config`.  Because phase 3 of `Engine::reload` only examines a topic
whose `storage_config` changed, the path change is silently accepted: the
reload succeeds (no error, no diagnostic), the live config now claims
`p2.so`, while the topic keeps serving from the `p1.so` storage object. -/
theorem reload_path_change_silently_accepted_counterexample :
    ("p1.so" ≠ "p2.so") ∧
      (reload (⟨fun t => .ok ⟨t.storage, 0⟩, fun _ _ s => .ok s,
            fun p => .ok ⟨p.name, 0⟩⟩ : ReloadEnv Nat)
          ⟨fun n => if n = "A" then some ⟨"A", ⟨"p1.so", 0⟩⟩ else none, [],
            ⟨[⟨"A", "p1.so", none⟩], []⟩⟩
          ⟨[⟨"A", "p2.so", none⟩], []⟩).2 = none ∧
      (reload (⟨fun t => .ok ⟨t.storage, 0⟩, fun _ _ s => .ok s,
            fun p => .ok ⟨p.name, 0⟩⟩ : ReloadEnv Nat)
          ⟨fun n => if n = "A" then some ⟨"A", ⟨"p1.so", 0⟩⟩ else none, [],
            ⟨[⟨"A", "p1.so", none⟩], []⟩⟩
          ⟨[⟨"A", "p2.so", none⟩], []⟩).1.registry "A" =
        some ⟨"A", ⟨"p1.so", 0⟩⟩ ∧
      (reload (⟨fun t => .ok ⟨t.storage, 0⟩, fun _ _ s => .ok s,
            fun p => .ok ⟨p.name, 0⟩⟩ : ReloadEnv Nat)
          ⟨fun n => if n = "A" then some ⟨"A", ⟨"p1.so", 0⟩⟩ else none, [],
            ⟨[⟨"A", "p1.so", none⟩], []⟩⟩
          ⟨[⟨"A", "p2.so", none⟩], []⟩).1.config.topics =
        [⟨"A", "p2.so", none⟩] := by
  refine ⟨by decide, ?_, ?_, ?_⟩ <;> rfl

/-- Phase 2 of reload never touches a binding whose name belongs to the old
configuration: only topics absent from the old config get registered. -/
theorem registerNewTopics_preserves_old {γ : Type} (env : ReloadEnv γ)
    (old : List (TopicConfig γ)) :
    ∀ (ts : List (TopicConfig γ)) (reg : TopicRegistry) (n : String),
      (old.any fun o => o.name == n) = true →
      ((registerNewTopics env old reg ts).1) n = reg n := by
  intro ts
  induction ts with
  | nil =>
      intro reg n _
      rfl
  | cons t ts ih =>
      intro reg n h
      unfold registerNewTopics
      by_cases hex : (old.any fun o => o.name == t.name) = true
      · rw [if_pos hex]
        exact ih reg n h
      · rw [if_neg hex]
        cases hc : env.createStorage t with
        | error e => rfl
        | ok storage =>
            rw [ih _ n h]
            have hne : n ≠ t.name := by
              intro he
              subst he
              exact hex h
            simp [TopicRegistry.register, hne]

/-- Phase 3 of reload never changes which storage plugin backs a registered
topic: every binding keeps its storage path (reconfiguration only replaces
the internal state of the same plugin object). -/
theorem reconfigureTopics_preserves_path {γ : Type} [DecidableEq γ]
    (env : ReloadEnv γ) (old : List (TopicConfig γ)) :
    ∀ (ts : List (TopicConfig γ)) (reg : TopicRegistry) (n : String)
      (t0 : ETopic), reg n = some t0 →
      ∃ t1, ((reconfigureTopics env old reg ts).1) n = some t1 ∧
        t1.storage.path = t0.storage.path := by
  intro ts
  induction ts with
  | nil =>
      intro reg n t0 h
      exact ⟨t0, h, rfl⟩
  | cons t ts ih =>
      intro reg n t0 h
      unfold reconfigureTopics
      cases hf : old.find? (fun o => o.name == t.name) with
      | none => exact ih reg n t0 h
      | some o =>
          dsimp only
          by_cases hcfg : o.storage_config = t.storage_config
          · rw [if_pos hcfg]
            exact ih reg n t0 h
          · rw [if_neg hcfg]
            by_cases hpath : o.storage ≠ t.storage
            · rw [if_pos hpath]
              exact ⟨t0, h, rfl⟩
            · rw [if_neg hpath]
              cases hr : reg t.name with
              | none => exact ⟨t0, h, rfl⟩
              | some topic =>
                  dsimp only
                  cases hv : env.validateAndReconfigure o t topic.storage.state with
                  | error e => exact ⟨t0, h, rfl⟩
                  | ok newState =>
                      dsimp only
                      by_cases hn : n = t.name
                      · have hreg' : (registryUpdate reg t.name
                            ⟨topic.name, ⟨topic.storage.path, newState⟩⟩) n =
                            some ⟨topic.name, ⟨topic.storage.path, newState⟩⟩ := by
                          simp [registryUpdate, hn]
                        obtain ⟨t1, h1, hp⟩ := ih _ n _ hreg'
                        refine ⟨t1, h1, ?_⟩
                        rw [hp]
                        have ht0 : t0 = topic := by
                          rw [hn] at h
                          rw [h] at hr
                          exact Option.some.inj hr
                        rw [ht0]
                      · have hreg' : (registryUpdate reg t.name
                            ⟨topic.name, ⟨topic.storage.path, newState⟩⟩) n = some t0 := by
                          simp only [registryUpdate, if_neg hn]
                          exact h
                        exact ih _ n t0 hreg'

/-- Phase 3 of reload returns an error whenever the new config contains a
topic whose matching old topic has a different `storage_config` and a
different storage plugin path. -/
theorem reconfigureTopics_fails_on_path_change {γ : Type} [DecidableEq γ]
    (env : ReloadEnv γ) (old : List (TopicConfig γ)) :
    ∀ (ts : List (TopicConfig γ)) (reg : TopicRegistry) (t o : TopicConfig γ),
      t ∈ ts → old.find? (fun x => x.name == t.name) = some o →
      o.storage_config ≠ t.storage_config → o.storage ≠ t.storage →
      ((reconfigureTopics env old reg ts).2).isSome = true := by
  intro ts
  induction ts with
  | nil =>
      intro reg t o hmem
      cases hmem
  | cons hd ts ih =>
      intro reg t o hmem hfind hcfg hpath
      unfold reconfigureTopics
      rcases List.mem_cons.mp hmem with heq | hmem'
      · subst heq
        rw [hfind]
        dsimp only
        rw [if_neg hcfg, if_pos hpath]
        rfl
      · cases hf : old.find? (fun x => x.name == hd.name) with
        | none => exact ih reg t o hmem' hfind hcfg hpath
        | some o' =>
            dsimp only
            by_cases hc : o'.storage_config = hd.storage_config
            · rw [if_pos hc]
              exact ih reg t o hmem' hfind hcfg hpath
            · rw [if_neg hc]
              by_cases hp : o'.storage ≠ hd.storage
              · rw [if_pos hp]
                rfl
              · rw [if_neg hp]
                cases reg hd.name with
                | none => rfl
                | some topic =>
                    dsimp only
                    cases env.validateAndReconfigure o' hd topic.storage.state with
                    | error e => rfl
                    | ok s => exact ih _ t o hmem' hfind hcfg hpath

/-- Claim C5 (amended): when the new configuration assigns an existing topic
a different storage plugin path AND a different `storage_config` (only then
does `Engine::reload` examine the path at all — see the counterexample),
the reload fails with an error, and every topic registered under a name of
the live configuration keeps its storage plugin: its registry binding still
carries the storage path it was created from. -/
theorem reload_rejects_storage_path_change {γ : Type} [DecidableEq γ]
    (env : ReloadEnv γ) (st : EngineState γ) (newConfig : GaussConfig γ)
    (newT o : TopicConfig γ)
    (hmem : newT ∈ newConfig.topics)
    (hfind : st.config.topics.find? (fun x => x.name == newT.name) = some o)
    (hcfg : o.storage_config ≠ newT.storage_config)
    (hpath : o.storage ≠ newT.storage) :
    ((reload env st newConfig).2).isSome = true ∧
      ∀ n t0, (st.config.topics.any fun x => x.name == n) = true →
        st.registry n = some t0 →
        ∃ t1, (reload env st newConfig).1.registry n = some t1 ∧
          t1.storage.path = t0.storage.path := by
  unfold reload
  cases hdel : findDeletedTopic st.config.topics newConfig.topics with
  | some d =>
      exact ⟨rfl, fun n t0 _ h => ⟨t0, h, rfl⟩⟩
  | none =>
      cases hreg : registerNewTopics env st.config.topics st.registry
          newConfig.topics with
      | mk reg err =>
          have hregn : ∀ n, (st.config.topics.any fun o => o.name == n) = true →
              reg n = st.registry n := by
            intro n hn
            have := registerNewTopics_preserves_old env st.config.topics
              newConfig.topics st.registry n hn
            rw [hreg] at this
            exact this
          cases err with
          | some e =>
              dsimp only
              refine ⟨rfl, fun n t0 hany h => ⟨t0, ?_, rfl⟩⟩
              rw [hregn n hany]
              exact h
          | none =>
              dsimp only
              cases hrec : reconfigureTopics env st.config.topics reg
                  newConfig.topics with
              | mk reg' err' =>
                  have hsome : err'.isSome = true := by
                    have := reconfigureTopics_fails_on_path_change env
                      st.config.topics newConfig.topics reg newT o hmem hfind
                      hcfg hpath
                    rw [hrec] at this
                    exact this
                  cases err' with
                  | none => simp at hsome
                  | some e' =>
                      dsimp only
                      refine ⟨rfl, fun n t0 hany h => ?_⟩
                      have h1 : reg n = some t0 := by
                        rw [hregn n hany]
                        exact h
                      have := reconfigureTopics_preserves_path env
                        st.config.topics newConfig.topics reg n t0 h1
                      rw [hrec] at this
                      exact this

/-- Claim C5 witness: live topic `A` on `p1.so` with `storage_config` 1, new
config moving it to `p2.so` with `storage_config` 2 — the reload errors and
the registry binding for `A` still carries path `p1.so`. -/
theorem reload_rejects_storage_path_change_witness :
    ((reload (⟨fun t => .ok ⟨t.storage, 0⟩, fun _ _ s => .ok s,
          fun p => .ok ⟨p.name, 0⟩⟩ : ReloadEnv Nat)
        ⟨fun n => if n = "A" then some ⟨"A", ⟨"p1.so", 0⟩⟩ else none, [],
          ⟨[⟨"A", "p1.so", some 1⟩], []⟩⟩
        ⟨[⟨"A", "p2.so", some 2⟩], []⟩).2).isSome = true ∧
      ∃ t1, (reload (⟨fun t => .ok ⟨t.storage, 0⟩, fun _ _ s => .ok s,
            fun p => .ok ⟨p.name, 0⟩⟩ : ReloadEnv Nat)
          ⟨fun n => if n = "A" then some ⟨"A", ⟨"p1.so", 0⟩⟩ else none, [],
            ⟨[⟨"A", "p1.so", some 1⟩], []⟩⟩
          ⟨[⟨"A", "p2.so", some 2⟩], []⟩).1.registry "A" = some t1 ∧
        t1.storage.path = "p1.so" := by
  have h := reload_rejects_storage_path_change
    (⟨fun t => .ok ⟨t.storage, 0⟩, fun _ _ s => .ok s,
        fun p => .ok ⟨p.name, 0⟩⟩ : ReloadEnv Nat)
    ⟨fun n => if n = "A" then some ⟨"A", ⟨"p1.so", 0⟩⟩ else none, [],
      ⟨[⟨"A", "p1.so", some 1⟩], []⟩⟩
    ⟨[⟨"A", "p2.so", some 2⟩], []⟩
    ⟨"A", "p2.so", some 2⟩ ⟨"A", "p1.so", some 1⟩
    (by decide) (by decide) (by decide) (by decide)
  refine ⟨h.1, ?_⟩
  obtain ⟨t1, h1, hp⟩ := h.2 "A" ⟨"A", ⟨"p1.so", 0⟩⟩ (by decide) rfl
  exact ⟨t1, h1, hp⟩

end Gauss
